import Mathlib

/-!
Shallow embedding of SteamDesktopFileGenerator (the module whose functions are
extractIco, downloadIcon, getIconHash, installIcon, createDesktopFile and
createAllDesktops).  External effects (the steamcmd subprocess, the icotool
subprocess, the HTTP fetch, and the filesystem) are supplied by an explicit
environment record; the control flow of every function is translated
statement by statement from the source.
-/

namespace SDFG

/-! ### Path constants of the source module.
`applicationPath`, `iconPath` and the CDN base are fixed strings in the source
(built from HOME); `tmpDir` is the directory `mkdtemp` returns, a fresh name
under the system temp root, modelled as an uninterpreted concrete string. -/

def applicationPath : String := "HOME/.local/share/applications/steam"

def iconPath : String := "HOME/.local/share/icons/hicolor"

def tmpDir : String := "TMP/sdfg-XXXXXX"

def steamIconBase : String :=
  "https://shared.fastly.steamstatic.com/community_assets/images/apps/"

/-! ### The two regular expressions of the source.

`steamIconRegex` is `([0-9]*)x([0-9]*)x([0-9]*)` (no flags): its `exec` returns
the leftmost match; each group is a maximal (greedy) digit run, possibly empty,
and the digit class is disjoint from the literal `x`, so greedy matching with
no backtracking is exact.

`steamcmdRegex` is `^\s*"clienticon"\s+"([^"]+)"\s*$` with the multiline flag:
a line consisting of optional whitespace, the quoted literal clienticon, at
least one whitespace, a quoted nonempty hash (the group cannot contain a
quote), and trailing whitespace. -/

def isJsSpace (c : Char) : Bool :=
  c == ' ' || c == '\t' || c == '\r' || c == '\n' || c == '\x0b' || c == '\x0c'

/-- Maximal digit run at the front of the character list, and the rest. -/
def takeDigits : List Char → List Char × List Char
  | [] => ([], [])
  | c :: cs =>
    if c.isDigit then
      let p := takeDigits cs
      (c :: p.1, p.2)
    else ([], c :: cs)

/-- Try `([0-9]*)x([0-9]*)x([0-9]*)` anchored at the front of the list. -/
def matchIconAt (cs : List Char) : Option (String × String × String) :=
  let p1 := takeDigits cs
  match p1.2 with
  | 'x' :: r2 =>
    let p2 := takeDigits r2
    match p2.2 with
    | 'x' :: r4 => some (⟨p1.1⟩, ⟨p2.1⟩, ⟨(takeDigits r4).1⟩)
    | _ => none
  | _ => none

/-- Leftmost match of `steamIconRegex`, as `RegExp.exec` finds it. -/
def firstIconMatch : List Char → Option (String × String × String)
  | [] => none
  | c :: cs =>
    match matchIconAt (c :: cs) with
    | some r => some r
    | none => firstIconMatch cs

/-- Match a literal character sequence at the front of the list. -/
def dropLiteral : List Char → List Char → Option (List Char)
  | [], cs => some cs
  | _ :: _, [] => none
  | p :: ps, c :: cs => if c == p then dropLiteral ps cs else none

/-- One line of steamcmd output against `steamcmdRegex`; the captured group. -/
def matchClienticonLine (line : String) : Option String :=
  let cs := line.data.dropWhile isJsSpace
  match dropLiteral "\"clienticon\"".data cs with
  | none => none
  | some r1 =>
    if (r1.takeWhile isJsSpace).isEmpty then none
    else
      match r1.dropWhile isJsSpace with
      | '"' :: r3 =>
        let val := r3.takeWhile (fun c => c != '"')
        if val.isEmpty then none
        else
          match r3.dropWhile (fun c => c != '"') with
          | '"' :: tail => if tail.all isJsSpace then some ⟨val⟩ else none
          | _ => none
      | _ => none

/-- `s.split(c)` over the character list: JavaScript `String.prototype.split`
with a one-character separator. -/
def splitCharList (sep : Char) : List Char → List (List Char)
  | [] => [[]]
  | c :: cs =>
    if c == sep then [] :: splitCharList sep cs
    else
      match splitCharList sep cs with
      | [] => [[c]]
      | l :: ls => (c :: l) :: ls

/-- `s.split('\n')`. -/
def jsSplitNl (s : String) : List String :=
  (splitCharList '\n' s.data).map String.mk

/-- First `clienticon` match inside one stdout chunk (the multiline regex
scans the chunk line by line). -/
def firstClienticon (chunk : String) : Option String :=
  (jsSplitNl chunk).findSome? matchClienticonLine

/-- JavaScript numeric coercion of a captured group: the groups are digit
runs (possibly empty), the value is the decimal reading, and
`Number("") = 0`. -/
def jsNumber (s : String) : Nat :=
  s.data.foldl (fun n c => n * 10 + (c.toNat - 48)) 0

/-! ### getIconHash: the promise over the steamcmd process.

The source attaches two listeners: on each stdout `data` chunk it runs
`steamcmdRegex.exec` and resolves with the captured hash on a match; on
`close` it rejects with the exit code only when that code is nonzero (the
JavaScript truthiness test `if (code)`).  A promise settles at most once, and
Node delivers every `data` event before `close`.  The returned value goes
through `.then(hash => hash, err => null)`, so a rejection becomes `null`.
A promise that never settles leaves the caller awaiting forever. -/

inductive ProcEvent where
  | data (chunk : String)
  | close (code : Nat)
  deriving DecidableEq

/-- One event against the settle-once promise state: `none` is unsettled. -/
def stepPromise (st : Option (Except Nat String)) (e : ProcEvent) :
    Option (Except Nat String) :=
  match st, e with
  | some s, _ => some s
  | none, .data chunk =>
    match firstClienticon chunk with
    | some h => some (.ok h)
    | none => none
  | none, .close code => if code != 0 then some (.error code) else none

def runPromise (events : List ProcEvent) : Option (Except Nat String) :=
  events.foldl stepPromise none

/-- The stdout chunks followed by the close event with the exit code. -/
def procEvents (chunks : List String) (code : Nat) : List ProcEvent :=
  chunks.map ProcEvent.data ++ [ProcEvent.close code]

/-- Outcome of an `async` call: it settles with a value, settles by throwing,
or never settles (the source's promise can stay pending forever). -/
inductive JsOut (α : Type) where
  | pending
  | thrown (e : String)
  | ok (a : α)
  deriving DecidableEq

/-- `getIconHash(app_id)`, given the process behaviour (stdout chunks and exit
code): the promise's outcome piped through `.then(h => h, err => null)`. -/
def getIconHash (chunks : List String) (code : Nat) : JsOut (Option String) :=
  match runPromise (procEvents chunks code) with
  | some (.ok h) => .ok (some h)
  | some (.error _) => .ok none
  | none => .pending

/-! ### The environment: external behaviour the run depends on. -/

structure Env where
  /-- stdout chunks of `steamcmd +login anonymous +app_info_print id +quit`. -/
  chunks : String → List String
  /-- exit code of that process, per app id. -/
  procExit : String → Nat
  /-- whether the HTTP GET of a url answers with a success status. -/
  fetchOk : String → Bool
  /-- whether streaming the body to the given temp path succeeds
  (`createWriteStream` with flag `wx` throws when the path exists). -/
  saveOk : String → Bool
  /-- whether `mkdir(dest)` succeeds (it throws when `dest` exists). -/
  mkdirOk : String → Bool
  /-- whether `icotool -x src -o dest` exits zero, per (src, dest) as they
  appear in the command string. -/
  icotoolOk : String → String → Bool
  /-- `readdir(dest)` after a successful extraction. -/
  readdirExtract : String → List String
  /-- `existsSync` on a `WxH/apps/` icon theme directory. -/
  iconDirExists : String → Bool
  /-- `existsSync` on a destination icon file, before this run copies any. -/
  destExists : String → Bool
  /-- whether `copyFile(_, destPath)` succeeds, per destination path. -/
  copyOk : String → Bool
  /-- `stat(join(steamCommonPath, dir))`: `none` when stat throws,
  otherwise `isDirectory()`. -/
  statDir : String → Option Bool
  /-- `existsSync` on `join(gamePath, steam_appid.txt)`. -/
  appidExists : String → Bool
  /-- contents of that `steam_appid.txt`. -/
  appidContent : String → String
  /-- whether `writeFile` of the `.desktop` file succeeds, per path. -/
  writeOk : String → Bool
  /-- `existsSync(steamCommonPath)`. -/
  commonExists : Bool
  /-- `readdir(steamCommonPath)`. -/
  entries : List String

/-! ### downloadIcon and extractIco. -/

def iconUrl (app_id hash : String) : String :=
  steamIconBase ++ app_id ++ "/" ++ hash ++ ".ico"

/-- `downloadIcon(app_id)`: hash lookup, then fetch, then stream to a temp
file; `null` when the hash or the fetch is missing. -/
def downloadIcon (env : Env) (app_id : String) : JsOut (Option String) :=
  match getIconHash (env.chunks app_id) (env.procExit app_id) with
  | .pending => .pending
  | .thrown e => .thrown e
  | .ok none => .ok none
  | .ok (some hash) =>
    if env.fetchOk (iconUrl app_id hash) then
      if env.saveOk (tmpDir ++ "/" ++ hash) then .ok (some (tmpDir ++ "/" ++ hash))
      else .thrown "stream"
    else .ok none

structure IconCandidate where
  path : String
  width : String
  height : String
  bitdepth : String
  deriving DecidableEq

/-- One extracted filename against `steamIconRegex`; the source's map callback
returns `null` (here `none`) for a filename without a match. -/
def parseIconFile (dest v : String) : Option IconCandidate :=
  match firstIconMatch v.data with
  | none => none
  | some (w, h, d) => some ⟨dest ++ v, w, h, d⟩

/-- How a JavaScript template string renders the `src` argument: the value
`null` prints as the four characters `null`. -/
def jsShow : Option String → String
  | none => "null"
  | some s => s

/-- `extractIco(src, dest)`.  `mkdir` throws when `dest` exists.  The icotool
promise rejects on a nonzero exit, so the `await` throws there and the
subsequent `if (err) return []` tests a value that can only be `null`. -/
def extractIco (env : Env) (src : Option String) (dest : String) :
    JsOut (List (Option IconCandidate)) :=
  if !env.mkdirOk dest then .thrown "mkdir"
  else if !env.icotoolOk (jsShow src) dest then .thrown "exec"
  else
    let err : Option String := none
    if err.isSome then .ok []
    else .ok ((env.readdirExtract dest).map (parseIconFile dest))

/-! ### installIcon. -/

/-- `join(iconPath, WxH/, apps/)` for a candidate. -/
def iconDirOf (v : IconCandidate) : String :=
  iconPath ++ "/" ++ v.width ++ "x" ++ v.height ++ "/apps/"

/-- `join(iconDir, steam_icon_<id>.png)` for a candidate. -/
def destPathOf (app_id : String) (v : IconCandidate) : String :=
  iconDirOf v ++ "steam_icon_" ++ app_id ++ ".png"

/-- `Math.max(...sizes.map(v => v.bitdepth))` over the numeric coercions; the
empty case (where JavaScript gives -Infinity) is only reached when the loop
below has no iterations, so its value is never compared. -/
def highestDepth (sizes : List IconCandidate) : Nat :=
  (sizes.map (fun v => jsNumber v.bitdepth)).foldr max 0

inductive LogMsg where
  | notSquare (path : String)
  deriving DecidableEq

/-- What one run of the selection loop did. -/
structure LoopOut where
  succeeded : Bool
  copies : List (String × String)
  logs : List LogMsg
  present : String → Bool

/-- The `for (const v of sizes)` loop of `installIcon`: `v.height != v.width`
is a string comparison, `v.bitdepth != highestDepth` coerces the string to a
number; a copy failure is caught by the empty `catch` and discarded.
`present` tracks `existsSync` on destination files as copies land. -/
def installIconGo (env : Env) (app_id : String) (hd : Nat)
    (ex : String → Bool) (succ : Bool) : List IconCandidate → LoopOut
  | [] => ⟨succ, [], [], ex⟩
  | v :: rest =>
    if v.height != v.width then
      let r := installIconGo env app_id hd ex succ rest
      { r with logs := .notSquare v.path :: r.logs }
    else if jsNumber v.bitdepth != hd then
      installIconGo env app_id hd ex succ rest
    else if !env.iconDirExists (iconDirOf v) then
      installIconGo env app_id hd ex succ rest
    else
      let dest := destPathOf app_id v
      if ex dest then
        installIconGo env app_id hd ex true rest
      else if env.copyOk dest then
        let r := installIconGo env app_id hd (fun p => p == dest || ex p) true rest
        { r with copies := (v.path, dest) :: r.copies }
      else
        installIconGo env app_id hd ex succ rest

/-- All-somes of the extracted list; `Math.max(...sizes.map(v => v.bitdepth))`
throws a TypeError at the first `null` element. -/
def allSomes {α : Type} : List (Option α) → Option (List α)
  | [] => some []
  | none :: _ => none
  | some a :: rest => (allSomes rest).map (a :: ·)

/-- `installIcon(app_id)` together with the icon copies it performed. -/
def installIconRun (env : Env) (app_id : String) :
    JsOut Bool × List (String × String) :=
  match downloadIcon env app_id with
  | .pending => (.pending, [])
  | .thrown e => (.thrown e, [])
  | .ok ico =>
    match extractIco env ico (tmpDir ++ "/" ++ app_id ++ "/") with
    | .pending => (.pending, [])
    | .thrown e => (.thrown e, [])
    | .ok sizes =>
      match allSomes sizes with
      | none => (.thrown "TypeError", [])
      | some l =>
        let r := installIconGo env app_id (highestDepth l) env.destExists false l
        (.ok r.succeeded, r.copies)

def installIcon (env : Env) (app_id : String) : JsOut Bool :=
  (installIconRun env app_id).1

/-! ### createDesktopFile and the batch driver. -/

inductive EntryResult where
  | hang
  | noFile
  | wrote (path content : String)
  deriving DecidableEq

/-- `fd.split('\n')[0]`. -/
def firstLineOf (s : String) : String := (jsSplitNl s).headD ""

def desktopFileContent (name id icon : String) : String :=
  "[Desktop Entry]\nName=" ++ name ++
    "\nComment=Play this game on Steam\nExec=steam steam://rungameid/" ++ id ++
    "\nIcon=" ++ icon ++ "\nTerminal=false\nType=Application\nCategories=Game;\n\n"

/-- `createDesktopFile(dir)`: each failure is caught at its own scope, so a
thrown icon pipeline (or failed stat, or failed write) yields no file; a
pending pipeline leaves the entry hanging.  Also returns the icon copies the
entry performed. -/
def createDesktopFile (env : Env) (dir : String) :
    EntryResult × List (String × String) :=
  match env.statDir dir with
  | none => (.noFile, [])
  | some false => (.noFile, [])
  | some true =>
    if !env.appidExists dir then (.noFile, [])
    else
      let id := firstLineOf (env.appidContent dir)
      match installIconRun env id with
      | (.pending, cs) => (.hang, cs)
      | (.thrown _, cs) => (.noFile, cs)
      | (.ok iconOk, cs) =>
        let icon := if iconOk then "steam_icon_" ++ id else "steam"
        let path := applicationPath ++ "/" ++ dir ++ ".desktop"
        if env.writeOk path then
          (.wrote path (desktopFileContent dir id icon), cs)
        else (.noFile, cs)

/-- The shortcut file an entry ends up writing, if any. -/
def entryDesktop (env : Env) (dir : String) : Option (String × String) :=
  match (createDesktopFile env dir).1 with
  | .wrote p c => some (p, c)
  | _ => none

/-- All shortcut files the batch eventually writes. -/
def desktopFiles (env : Env) : List (String × String) :=
  env.entries.filterMap (entryDesktop env)

inductive FsWrite where
  | tempDir (path : String)
  | iconCopy (src dest : String)
  | desktop (path content : String)
  deriving DecidableEq

def entryWrites (env : Env) (dir : String) : List FsWrite :=
  let r := createDesktopFile env dir
  r.2.map (fun pc => FsWrite.iconCopy pc.1 pc.2) ++
    match r.1 with
    | .wrote p c => [.desktop p c]
    | _ => []

structure RunResult where
  exitCode : Nat
  writes : List FsWrite
  deriving DecidableEq

/-- The whole program: the argument check, then `mkdtemp` (which creates the
temporary directory before anything else), then `createAllDesktops`, whose
missing-`steamapps/common` branch exits with status 1. -/
def runProgram (env : Env) (args : List String) : RunResult :=
  if args.length ≤ 0 then ⟨1, []⟩
  else if !env.commonExists then ⟨1, [.tempDir tmpDir]⟩
  else ⟨0, .tempDir tmpDir :: env.entries.flatMap (entryWrites env)⟩

/-! ### Helper lemmas about the selection loop. -/

/-- A candidate passes the loop up to the copy step: square (string equality,
as `v.height != v.width` compares), numeric bitdepth equal to the maximum,
and an existing theme directory. -/
def acceptedB (env : Env) (hd : Nat) (v : IconCandidate) : Bool :=
  (v.height == v.width) && (jsNumber v.bitdepth == hd) &&
    env.iconDirExists (iconDirOf v)

theorem installIconGo_copies_mem (env : Env) (app_id : String) (hd : Nat)
    (sizes : List IconCandidate) :
    ∀ (ex : String → Bool) (succ : Bool) (src dest : String),
      (src, dest) ∈ (installIconGo env app_id hd ex succ sizes).copies →
      ∃ v ∈ sizes, src = v.path ∧ dest = destPathOf app_id v ∧
        acceptedB env hd v = true ∧ env.copyOk dest = true ∧ ex dest = false := by
  induction sizes with
  | nil => intro ex succ src dest h; simp [installIconGo] at h
  | cons v rest ih =>
    intro ex succ src dest h
    cases hsq : v.height != v.width with
    | true =>
      simp only [installIconGo, hsq, if_pos] at h
      obtain ⟨w, hw, rest'⟩ := ih ex succ src dest h
      exact ⟨w, List.mem_cons_of_mem _ hw, rest'⟩
    | false =>
      cases hdp : jsNumber v.bitdepth != hd with
      | true =>
        simp only [installIconGo, hsq, hdp] at h
        simp only [Bool.false_eq_true, if_false, if_pos] at h
        obtain ⟨w, hw, rest'⟩ := ih ex succ src dest h
        exact ⟨w, List.mem_cons_of_mem _ hw, rest'⟩
      | false =>
        cases hdir : env.iconDirExists (iconDirOf v) with
        | false =>
          simp only [installIconGo, hsq, hdp, hdir] at h
          simp only [Bool.false_eq_true, if_false, Bool.not_false, if_pos] at h
          obtain ⟨w, hw, rest'⟩ := ih ex succ src dest h
          exact ⟨w, List.mem_cons_of_mem _ hw, rest'⟩
        | true =>
          cases hex : ex (destPathOf app_id v) with
          | true =>
            simp only [installIconGo, hsq, hdp, hdir, hex] at h
            simp only [Bool.false_eq_true, if_false, Bool.not_true, if_pos] at h
            obtain ⟨w, hw, rest'⟩ := ih ex true src dest h
            exact ⟨w, List.mem_cons_of_mem _ hw, rest'⟩
          | false =>
            cases hcp : env.copyOk (destPathOf app_id v) with
            | true =>
              simp only [installIconGo, hsq, hdp, hdir, hex, hcp] at h
              simp only [Bool.false_eq_true, if_false, Bool.not_true,
                Bool.not_false, if_pos, List.mem_cons] at h
              rcases h with h | h
              · refine ⟨v, List.mem_cons_self v rest, ?_⟩
                obtain ⟨h1, h2⟩ := Prod.mk.inj h
                refine ⟨h1, h2, ?_, h2 ▸ hcp, h2 ▸ hex⟩
                simp only [acceptedB, Bool.and_eq_true]
                refine ⟨⟨?_, ?_⟩, hdir⟩
                · simpa [bne] using hsq
                · simpa [bne] using hdp
              · obtain ⟨w, hw, h1, h2, h3, h4, h5⟩ :=
                  ih (fun p => p == destPathOf app_id v || ex p) true src dest h
                refine ⟨w, List.mem_cons_of_mem _ hw, h1, h2, h3, h4, ?_⟩
                simp only [Bool.or_eq_false_iff] at h5
                exact h5.2
            | false =>
              simp only [installIconGo, hsq, hdp, hdir, hex, hcp] at h
              simp only [Bool.false_eq_true, if_false, Bool.not_true,
                Bool.not_false, if_pos] at h
              obtain ⟨w, hw, rest'⟩ := ih ex succ src dest h
              exact ⟨w, List.mem_cons_of_mem _ hw, rest'⟩

/-- The loop's flag in terms of the initial file state `ex0`: it ends true
exactly when it started true or some candidate passes all guards and its
destination either already exists or can be copied.  `ex` is the current
file state, bounded between `ex0` and `ex0 ∪ copyable`. -/
theorem installIconGo_succeeded_iff (env : Env) (app_id : String) (hd : Nat)
    (ex0 : String → Bool) (sizes : List IconCandidate) :
    ∀ (ex : String → Bool) (succ : Bool),
      (∀ p, ex0 p = true → ex p = true) →
      (∀ p, ex p = true → ex0 p = true ∨ env.copyOk p = true) →
      ((installIconGo env app_id hd ex succ sizes).succeeded = true ↔
        succ = true ∨ ∃ v ∈ sizes, acceptedB env hd v = true ∧
          (ex0 (destPathOf app_id v) = true ∨
            env.copyOk (destPathOf app_id v) = true)) := by
  induction sizes with
  | nil => intro ex succ _ _; simp [installIconGo]
  | cons v rest ih =>
    intro ex succ hmono hbound
    cases hsq : v.height != v.width with
    | true =>
      have hstep : (installIconGo env app_id hd ex succ (v :: rest)).succeeded =
          (installIconGo env app_id hd ex succ rest).succeeded := by
        simp [installIconGo, hsq]
      have hv : acceptedB env hd v = false := by
        simp only [acceptedB, Bool.and_eq_false_iff]
        left; left; simpa [bne] using hsq
      rw [hstep, ih ex succ hmono hbound]
      simp [hv]
    | false =>
      cases hdp : jsNumber v.bitdepth != hd with
      | true =>
        have hstep : (installIconGo env app_id hd ex succ (v :: rest)).succeeded =
            (installIconGo env app_id hd ex succ rest).succeeded := by
          simp [installIconGo, hsq, hdp]
        have hv : acceptedB env hd v = false := by
          simp only [acceptedB, Bool.and_eq_false_iff]
          left; right; simpa [bne] using hdp
        rw [hstep, ih ex succ hmono hbound]
        simp [hv]
      | false =>
        have hsq' : (v.height == v.width) = true := by simpa [bne] using hsq
        have hdp' : (jsNumber v.bitdepth == hd) = true := by simpa [bne] using hdp
        cases hdir : env.iconDirExists (iconDirOf v) with
        | false =>
          have hstep : (installIconGo env app_id hd ex succ (v :: rest)).succeeded =
              (installIconGo env app_id hd ex succ rest).succeeded := by
            simp [installIconGo, hsq, hdp, hdir]
          have hv : acceptedB env hd v = false := by
            simp [acceptedB, hdir]
          rw [hstep, ih ex succ hmono hbound]
          simp [hv]
        | true =>
          have hv : acceptedB env hd v = true := by
            simp [acceptedB, hsq', hdp', hdir]
          cases hex : ex (destPathOf app_id v) with
          | true =>
            have hstep : (installIconGo env app_id hd ex succ (v :: rest)).succeeded =
                (installIconGo env app_id hd ex true rest).succeeded := by
              simp [installIconGo, hsq, hdp, hdir, hex]
            rw [hstep, ih ex true hmono hbound]
            have hvd := hbound _ hex
            simp [hv, hvd]
          | false =>
            cases hcp : env.copyOk (destPathOf app_id v) with
            | true =>
              have hstep : (installIconGo env app_id hd ex succ (v :: rest)).succeeded =
                  (installIconGo env app_id hd
                    (fun p => p == destPathOf app_id v || ex p) true rest).succeeded := by
                simp [installIconGo, hsq, hdp, hdir, hex, hcp]
              have hmono' : ∀ p, ex0 p = true →
                  (p == destPathOf app_id v || ex p) = true := by
                intro p hp
                simp [hmono p hp]
              have hbound' : ∀ p, (p == destPathOf app_id v || ex p) = true →
                  ex0 p = true ∨ env.copyOk p = true := by
                intro p hp
                rcases Bool.or_eq_true_iff.mp hp with hp | hp
                · right
                  have : p = destPathOf app_id v := by simpa using hp
                  rw [this]; exact hcp
                · exact hbound p hp
              rw [hstep, ih _ true hmono' hbound']
              simp [hv, hcp]
            | false =>
              have hstep : (installIconGo env app_id hd ex succ (v :: rest)).succeeded =
                  (installIconGo env app_id hd ex succ rest).succeeded := by
                simp [installIconGo, hsq, hdp, hdir, hex, hcp]
              rw [hstep, ih ex succ hmono hbound]
              have hvd : ex0 (destPathOf app_id v) = false := by
                cases h0 : ex0 (destPathOf app_id v) with
                | false => rfl
                | true => rw [hmono _ h0] at hex; exact hex
              simp [hv, hvd, hcp]

/-- Files present before the loop are still present after it. -/
theorem installIconGo_present_mono (env : Env) (app_id : String) (hd : Nat)
    (sizes : List IconCandidate) :
    ∀ (ex : String → Bool) (succ : Bool) (p : String), ex p = true →
      (installIconGo env app_id hd ex succ sizes).present p = true := by
  induction sizes with
  | nil => intro ex succ p hp; simpa [installIconGo] using hp
  | cons v rest ih =>
    intro ex succ p hp
    simp only [installIconGo]
    cases hsq : v.height != v.width <;> simp only [Bool.false_eq_true, if_false, if_pos]
    · cases hdp : jsNumber v.bitdepth != hd <;>
        simp only [Bool.false_eq_true, if_false, if_pos]
      · cases hdir : env.iconDirExists (iconDirOf v) <;>
          simp only [Bool.not_true, Bool.not_false, Bool.false_eq_true, if_false, if_pos]
        · exact ih ex succ p hp
        · cases hex : ex (destPathOf app_id v) <;>
            simp only [Bool.false_eq_true, if_false, if_pos]
          · cases hcp : env.copyOk (destPathOf app_id v) <;>
              simp only [Bool.false_eq_true, if_false, if_pos]
            · exact ih ex succ p hp
            · exact ih _ true p (by simp [hp])
          · exact ih ex true p hp
      · exact ih ex succ p hp
    · exact ih ex succ p hp

/-- After the loop, the destination of every guard-passing, copyable
candidate is present (it was present already, or this run copied it). -/
theorem installIconGo_present_of_accepted (env : Env) (app_id : String) (hd : Nat)
    (sizes : List IconCandidate) :
    ∀ (ex : String → Bool) (succ : Bool) (v : IconCandidate), v ∈ sizes →
      acceptedB env hd v = true →
      env.copyOk (destPathOf app_id v) = true →
      (installIconGo env app_id hd ex succ sizes).present (destPathOf app_id v) = true := by
  induction sizes with
  | nil => intro ex succ v hv; exact absurd hv (List.not_mem_nil v)
  | cons w rest ih =>
    intro ex succ v hv hacc hcp
    rcases List.mem_cons.mp hv with rfl | hv
    · have hsq : (v.height != v.width) = false := by
        simp only [acceptedB, Bool.and_eq_true] at hacc
        simp [bne, hacc.1.1]
      have hdp : (jsNumber v.bitdepth != hd) = false := by
        simp only [acceptedB, Bool.and_eq_true] at hacc
        simp [bne, hacc.1.2]
      have hdir : env.iconDirExists (iconDirOf v) = true := by
        simp only [acceptedB, Bool.and_eq_true] at hacc
        exact hacc.2
      cases hex : ex (destPathOf app_id v) with
      | true =>
        have : (installIconGo env app_id hd ex succ (v :: rest)).present =
            (installIconGo env app_id hd ex true rest).present := by
          simp [installIconGo, hsq, hdp, hdir, hex]
        rw [this]
        exact installIconGo_present_mono env app_id hd rest ex true _ hex
      | false =>
        have : (installIconGo env app_id hd ex succ (v :: rest)).present =
            (installIconGo env app_id hd
              (fun p => p == destPathOf app_id v || ex p) true rest).present := by
          simp [installIconGo, hsq, hdp, hdir, hex, hcp]
        rw [this]
        exact installIconGo_present_mono env app_id hd rest _ true _ (by simp)
    · cases hsq : w.height != w.width
      · cases hdp : jsNumber w.bitdepth != hd
        · cases hdir : env.iconDirExists (iconDirOf w)
          · have : (installIconGo env app_id hd ex succ (w :: rest)).present =
                (installIconGo env app_id hd ex succ rest).present := by
              simp [installIconGo, hsq, hdp, hdir]
            rw [this]; exact ih ex succ v hv hacc hcp
          · cases hex : ex (destPathOf app_id w)
            · cases hcp' : env.copyOk (destPathOf app_id w)
              · have : (installIconGo env app_id hd ex succ (w :: rest)).present =
                    (installIconGo env app_id hd ex succ rest).present := by
                  simp [installIconGo, hsq, hdp, hdir, hex, hcp']
                rw [this]; exact ih ex succ v hv hacc hcp
              · have : (installIconGo env app_id hd ex succ (w :: rest)).present =
                    (installIconGo env app_id hd
                      (fun p => p == destPathOf app_id w || ex p) true rest).present := by
                  simp [installIconGo, hsq, hdp, hdir, hex, hcp']
                rw [this]; exact ih _ true v hv hacc hcp
            · have : (installIconGo env app_id hd ex succ (w :: rest)).present =
                  (installIconGo env app_id hd ex true rest).present := by
                simp [installIconGo, hsq, hdp, hdir, hex]
              rw [this]; exact ih ex true v hv hacc hcp
        · have : (installIconGo env app_id hd ex succ (w :: rest)).present =
              (installIconGo env app_id hd ex succ rest).present := by
            simp [installIconGo, hsq, hdp]
          rw [this]; exact ih ex succ v hv hacc hcp
      · have : (installIconGo env app_id hd ex succ (w :: rest)).present =
            (installIconGo env app_id hd ex succ rest).present := by
          simp [installIconGo, hsq]
        rw [this]; exact ih ex succ v hv hacc hcp

/-- If every guard-passing copyable candidate's destination already exists,
the loop copies nothing. -/
theorem installIconGo_copies_nil (env : Env) (app_id : String) (hd : Nat)
    (sizes : List IconCandidate) :
    ∀ (ex : String → Bool) (succ : Bool),
      (∀ v ∈ sizes, acceptedB env hd v = true →
        env.copyOk (destPathOf app_id v) = true →
        ex (destPathOf app_id v) = true) →
      (installIconGo env app_id hd ex succ sizes).copies = [] := by
  induction sizes with
  | nil => intro ex succ _; simp [installIconGo]
  | cons v rest ih =>
    intro ex succ hall
    have hrest : ∀ w ∈ rest, acceptedB env hd w = true →
        env.copyOk (destPathOf app_id w) = true →
        ex (destPathOf app_id w) = true :=
      fun w hw => hall w (List.mem_cons_of_mem _ hw)
    cases hsq : v.height != v.width
    · cases hdp : jsNumber v.bitdepth != hd
      · cases hdir : env.iconDirExists (iconDirOf v)
        · have : (installIconGo env app_id hd ex succ (v :: rest)).copies =
              (installIconGo env app_id hd ex succ rest).copies := by
            simp [installIconGo, hsq, hdp, hdir]
          rw [this]; exact ih ex succ hrest
        · have hacc : acceptedB env hd v = true := by
            simp only [acceptedB, Bool.and_eq_true]
            exact ⟨⟨by simpa [bne] using hsq, by simpa [bne] using hdp⟩, hdir⟩
          cases hex : ex (destPathOf app_id v)
          · cases hcp : env.copyOk (destPathOf app_id v)
            · have : (installIconGo env app_id hd ex succ (v :: rest)).copies =
                  (installIconGo env app_id hd ex succ rest).copies := by
                simp [installIconGo, hsq, hdp, hdir, hex, hcp]
              rw [this]; exact ih ex succ hrest
            · exact absurd (hall v (List.mem_cons_self v rest) hacc hcp)
                (by simp [hex])
          · have : (installIconGo env app_id hd ex succ (v :: rest)).copies =
                (installIconGo env app_id hd ex true rest).copies := by
              simp [installIconGo, hsq, hdp, hdir, hex]
            rw [this]; exact ih ex true hrest
      · have : (installIconGo env app_id hd ex succ (v :: rest)).copies =
            (installIconGo env app_id hd ex succ rest).copies := by
          simp [installIconGo, hsq, hdp]
        rw [this]; exact ih ex succ hrest
    · have : (installIconGo env app_id hd ex succ (v :: rest)).copies =
          (installIconGo env app_id hd ex succ rest).copies := by
        simp [installIconGo, hsq]
      rw [this]; exact ih ex succ hrest

/-- Rerunning the loop on the file state the first run left behind copies
nothing. -/
theorem installIconGo_idempotent (env : Env) (app_id : String) (hd : Nat)
    (sizes : List IconCandidate) (ex : String → Bool) (succ succ' : Bool) :
    (installIconGo env app_id hd
      (installIconGo env app_id hd ex succ sizes).present succ' sizes).copies = [] := by
  apply installIconGo_copies_nil
  intro v hv hacc hcp
  exact installIconGo_present_of_accepted env app_id hd sizes ex succ v hv hacc hcp

/-! ### Helper lemmas about the steamcmd promise. -/

/-- A settled promise ignores every later event. -/
theorem foldl_stepPromise_settled (events : List ProcEvent) (s : Except Nat String) :
    events.foldl stepPromise (some s) = some s := by
  induction events with
  | nil => rfl
  | cons e rest ih => simpa [stepPromise] using ih

/-- Over the data events alone, the promise state is the first chunk match. -/
theorem foldl_stepPromise_data (chunks : List String) :
    (chunks.map ProcEvent.data).foldl stepPromise none =
      (chunks.findSome? firstClienticon).map Except.ok := by
  induction chunks with
  | nil => rfl
  | cons c rest ih =>
    simp only [List.map_cons, List.foldl_cons, List.findSome?_cons]
    cases h : firstClienticon c with
    | some v => simp [stepPromise, h, foldl_stepPromise_settled]
    | none => simpa [stepPromise, h] using ih

/-! ### Concrete environments used by individual claims. -/

/-- An environment where every external step succeeds and every theme
directory exists; only the loop's own guards can reject a candidate. -/
def allOkEnv : Env where
  chunks := fun _ => []
  procExit := fun _ => 0
  fetchOk := fun _ => true
  saveOk := fun _ => true
  mkdirOk := fun _ => true
  icotoolOk := fun _ _ => true
  readdirExtract := fun _ => []
  iconDirExists := fun _ => true
  destExists := fun _ => false
  copyOk := fun _ => true
  statDir := fun _ => some true
  appidExists := fun _ => true
  appidContent := fun _ => ""
  writeOk := fun _ => true
  commonExists := true
  entries := []

/-- The spec's worked example: (64,64,32), (64,64,8) and (32,16,32). -/
def c1sizes : List IconCandidate :=
  [⟨"p64", "64", "64", "32"⟩, ⟨"p8", "64", "64", "8"⟩, ⟨"pns", "32", "16", "32"⟩]

/-- C1: a candidate is copied into the icon theme tree only if its width
equals its height and its bitdepth equals the maximum bitdepth over all
candidates; on the spec's example list, only the (64,64,32) candidate is
copied (the (64,64,8) one fails the maximum-depth test, the (32,16,32) one
the squareness test). -/
theorem c1_selection_square_max_depth :
    (∀ (env : Env) (app_id : String) (ex : String → Bool) (succ : Bool)
      (sizes : List IconCandidate) (src dest : String),
      (src, dest) ∈ (installIconGo env app_id (highestDepth sizes) ex succ sizes).copies →
      ∃ v ∈ sizes, src = v.path ∧ v.height = v.width ∧
        jsNumber v.bitdepth = highestDepth sizes) ∧
    (installIconGo allOkEnv "10" (highestDepth c1sizes) (fun _ => false) false c1sizes).copies =
      [("p64", iconPath ++ "/64x64/apps/steam_icon_10.png")] := by
  constructor
  · intro env app_id ex succ sizes src dest h
    obtain ⟨v, hv, h1, _, hacc, _, _⟩ :=
      installIconGo_copies_mem env app_id (highestDepth sizes) sizes ex succ src dest h
    refine ⟨v, hv, h1, ?_, ?_⟩
    · simp only [acceptedB, Bool.and_eq_true, beq_iff_eq] at hacc
      exact hacc.1.1
    · simp only [acceptedB, Bool.and_eq_true, beq_iff_eq] at hacc
      exact hacc.1.2
  · decide

/-- C4 counterexample: a steamcmd process that prints no matching line and
closes with exit status zero leaves getIconHash pending forever; it does not
resolve to the absence value. -/
theorem c4_zero_exit_pending :
    getIconHash ["Steam Console Client loaded"] 0 = JsOut.pending ∧
    getIconHash ["Steam Console Client loaded"] 0 ≠ JsOut.ok none := by
  decide

/-- C4 as amended: getIconHash resolves with the first hash token matched in
the output chunks; with no match it resolves to the absence value when the
exit status is nonzero, and stays pending when the exit status is zero. -/
theorem c4_resolution_by_exit_code (chunks : List String) (code : Nat) :
    getIconHash chunks code =
      match chunks.findSome? firstClienticon with
      | some h => JsOut.ok (some h)
      | none => if code != 0 then JsOut.ok none else JsOut.pending := by
  unfold getIconHash runPromise procEvents
  rw [List.foldl_append, foldl_stepPromise_data]
  cases h : chunks.findSome? firstClienticon with
  | some v => simp [stepPromise, foldl_stepPromise_settled]
  | none =>
    cases hc : code != 0 <;> simp [stepPromise, hc]

/-- An entry whose hash lookup process prints no match and exits with status
1: the hash resolves to the absence value, `downloadIcon` returns `null`, and
`icotool -x null -o ...` fails (there is no file named `null`). -/
def c2env : Env where
  chunks := fun _ => ["Waiting for client config...OK"]
  procExit := fun _ => 1
  fetchOk := fun _ => false
  saveOk := fun _ => false
  mkdirOk := fun _ => true
  icotoolOk := fun src _ => src != "null"
  readdirExtract := fun _ => []
  iconDirExists := fun _ => true
  destExists := fun _ => false
  copyOk := fun _ => true
  statDir := fun _ => some true
  appidExists := fun _ => true
  appidContent := fun _ => "123\n"
  writeOk := fun _ => true
  commonExists := true
  entries := ["Game"]

/-- C2: on a failed hash resolution the entry writes no shortcut at all.
`getIconHash` does resolve to the absence value, but `extractIco`'s rejected
promise makes `installIcon` throw, and `createDesktopFile` catches that
exception after the point where the shortcut would have been written. -/
theorem c2_hash_failure_writes_nothing :
    getIconHash (c2env.chunks "123") (c2env.procExit "123") = JsOut.ok none ∧
    installIcon c2env "123" = JsOut.thrown "exec" ∧
    createDesktopFile c2env "Game" = (EntryResult.noFile, []) := by
  decide

/-- An environment where the extraction tool exits nonzero. -/
def c3env : Env where
  chunks := fun _ => []
  procExit := fun _ => 0
  fetchOk := fun _ => true
  saveOk := fun _ => true
  mkdirOk := fun _ => true
  icotoolOk := fun _ _ => false
  readdirExtract := fun _ => []
  iconDirExists := fun _ => true
  destExists := fun _ => false
  copyOk := fun _ => true
  statDir := fun _ => some true
  appidExists := fun _ => true
  appidContent := fun _ => ""
  writeOk := fun _ => true
  commonExists := true
  entries := []

/-- C3: when icotool exits nonzero, extractIco does not return an empty
candidate list: its promise rejects, so the awaited call throws to the
caller (the `if (err) return []` line is unreachable). -/
theorem c3_extract_failure_throws :
    extractIco c3env (some (tmpDir ++ "/abcd")) (tmpDir ++ "/123/") =
      JsOut.thrown "exec" ∧
    extractIco c3env (some (tmpDir ++ "/abcd")) (tmpDir ++ "/123/") ≠
      JsOut.ok [] := by
  decide

/-- An environment whose extraction directory lists one file that does not
match the WxHxD pattern next to one that does; everything else succeeds. -/
def c5env : Env where
  chunks := fun _ => [" \"clienticon\" \"ffff\" "]
  procExit := fun _ => 0
  fetchOk := fun _ => true
  saveOk := fun _ => true
  mkdirOk := fun _ => true
  icotoolOk := fun _ _ => true
  readdirExtract := fun _ => ["readme.txt", "icon_1_64x64x32.png"]
  iconDirExists := fun _ => true
  destExists := fun _ => false
  copyOk := fun _ => true
  statDir := fun _ => some true
  appidExists := fun _ => true
  appidContent := fun _ => "55\n"
  writeOk := fun _ => true
  commonExists := true
  entries := ["Game"]

/-- C5: a filename that does not match the three-part numeric pattern is not
dropped: the map keeps it as a `null` entry, and the selection code in
installIcon then throws a TypeError reading `.bitdepth` of `null` (so no
shortcut is written for the entry either). -/
theorem c5_nonmatching_kept_as_null :
    extractIco c5env (some (tmpDir ++ "/ffff")) (tmpDir ++ "/55/") =
      JsOut.ok [none,
        some ⟨tmpDir ++ "/55/" ++ "icon_1_64x64x32.png", "64", "64", "32"⟩] ∧
    installIcon c5env "55" = JsOut.thrown "TypeError" ∧
    createDesktopFile c5env "Game" = (EntryResult.noFile, []) := by
  decide

/-- A valid root with two marker subdirectories, ids 100 and 200; the hash
process succeeds for 100 and exits nonzero for 200. -/
def c6env : Env where
  chunks := fun id => if id == "100" then [" \"clienticon\" \"abc123\"\n"] else ["no match"]
  procExit := fun id => if id == "100" then 0 else 1
  fetchOk := fun _ => true
  saveOk := fun _ => true
  mkdirOk := fun _ => true
  icotoolOk := fun src _ => src != "null"
  readdirExtract := fun _ => ["icon_1_64x64x32.png"]
  iconDirExists := fun _ => true
  destExists := fun _ => false
  copyOk := fun _ => true
  statDir := fun _ => some true
  appidExists := fun _ => true
  appidContent := fun d => if d == "GameA" then "100\n" else "200\n"
  writeOk := fun _ => true
  commonExists := true
  entries := ["GameA", "GameB"]

set_option maxRecDepth 8192 in
/-- C6: two subdirectories with distinct ids do not yield two shortcut files:
the entry whose hash lookup exits nonzero writes nothing (its icon pipeline
throws), so only one `.desktop` file appears — that one does embed its id in
the `steam://rungameid/` launch command. -/
theorem c6_one_entry_lost :
    c6env.entries.length = 2 ∧
    desktopFiles c6env =
      [(applicationPath ++ "/GameA.desktop",
        desktopFileContent "GameA" "100" "steam_icon_100")] ∧
    (runProgram c6env ["SteamLibrary"]).exitCode = 0 := by
  decide

/-- C7: an initially existing destination file is never a copy target (no
overwrite); the loop succeeds exactly when some guard-passing candidate's
destination already exists or is copyable; rerunning the loop on the file
state a first run left behind copies nothing; and concretely, a single
accepted candidate whose destination already exists yields success with zero
copies. -/
theorem c7_existing_destination_idempotent :
    (∀ (env : Env) (app_id : String) (hd : Nat) (ex : String → Bool) (succ : Bool)
      (sizes : List IconCandidate) (src dest : String), ex dest = true →
      (src, dest) ∉ (installIconGo env app_id hd ex succ sizes).copies) ∧
    (∀ (env : Env) (app_id : String) (hd : Nat) (ex : String → Bool)
      (sizes : List IconCandidate),
      ((installIconGo env app_id hd ex false sizes).succeeded = true ↔
        ∃ v ∈ sizes, acceptedB env hd v = true ∧
          (ex (destPathOf app_id v) = true ∨
            env.copyOk (destPathOf app_id v) = true))) ∧
    (∀ (env : Env) (app_id : String) (hd : Nat) (ex : String → Bool)
      (succ succ' : Bool) (sizes : List IconCandidate),
      (installIconGo env app_id hd
        (installIconGo env app_id hd ex succ sizes).present succ' sizes).copies = []) ∧
    ((installIconGo allOkEnv "77" 32
        (fun p => p == destPathOf "77" ⟨"q64", "64", "64", "32"⟩) false
        [⟨"q64", "64", "64", "32"⟩]).succeeded = true ∧
      (installIconGo allOkEnv "77" 32
        (fun p => p == destPathOf "77" ⟨"q64", "64", "64", "32"⟩) false
        [⟨"q64", "64", "64", "32"⟩]).copies = []) := by
  refine ⟨?_, ?_, ?_, ?_⟩
  · intro env app_id hd ex succ sizes src dest hex hmem
    obtain ⟨v, _, _, _, _, _, hfalse⟩ :=
      installIconGo_copies_mem env app_id hd sizes ex succ src dest hmem
    rw [hex] at hfalse
    simp at hfalse
  · intro env app_id hd ex sizes
    have h := installIconGo_succeeded_iff env app_id hd ex sizes ex false
      (fun _ hp => hp) (fun _ hp => Or.inl hp)
    simpa using h
  · intro env app_id hd ex succ succ' sizes
    exact installIconGo_idempotent env app_id hd sizes ex succ succ'
  · decide

/-- The all-success environment with a failing `copyFile`. -/
def c10env : Env := { allOkEnv with copyOk := fun _ => false }

/-- C10: a candidate whose copy fails changes nothing at all — the loop's
whole outcome (flag, copies, logs and file state) equals the outcome on the
remaining candidates, so the failure is swallowed without a log and does not
abort iteration; the loop returns false only when nothing was copied and no
accepted candidate's destination pre-existed; and concretely one accepted
candidate with a failing copy yields false, no copies and no log. -/
theorem c10_copy_failure_swallowed :
    (∀ (env : Env) (app_id : String) (hd : Nat) (ex : String → Bool) (succ : Bool)
      (v : IconCandidate) (rest : List IconCandidate),
      (v.height != v.width) = false →
      (jsNumber v.bitdepth != hd) = false →
      env.iconDirExists (iconDirOf v) = true →
      ex (destPathOf app_id v) = false →
      env.copyOk (destPathOf app_id v) = false →
      installIconGo env app_id hd ex succ (v :: rest) =
        installIconGo env app_id hd ex succ rest) ∧
    (∀ (env : Env) (app_id : String) (hd : Nat) (ex : String → Bool)
      (sizes : List IconCandidate),
      (installIconGo env app_id hd ex false sizes).succeeded = false →
      (installIconGo env app_id hd ex false sizes).copies = [] ∧
      ∀ v ∈ sizes, acceptedB env hd v = true → ex (destPathOf app_id v) = false) ∧
    ((installIconGo c10env "9" 32 (fun _ => false) false
        [⟨"r64", "64", "64", "32"⟩]).succeeded = false ∧
      (installIconGo c10env "9" 32 (fun _ => false) false
        [⟨"r64", "64", "64", "32"⟩]).copies = [] ∧
      (installIconGo c10env "9" 32 (fun _ => false) false
        [⟨"r64", "64", "64", "32"⟩]).logs = []) := by
  refine ⟨?_, ?_, ?_⟩
  · intro env app_id hd ex succ v rest h1 h2 h3 h4 h5
    simp [installIconGo, h1, h2, h3, h4, h5]
  · intro env app_id hd ex sizes hfail
    have hiff := installIconGo_succeeded_iff env app_id hd ex sizes ex false
      (fun _ hp => hp) (fun _ hp => Or.inl hp)
    have hno : ¬ ∃ v ∈ sizes, acceptedB env hd v = true ∧
        (ex (destPathOf app_id v) = true ∨
          env.copyOk (destPathOf app_id v) = true) := by
      intro hex
      have := hiff.mpr (Or.inr hex)
      rw [hfail] at this
      simp at this
    constructor
    · by_contra hne
      obtain ⟨⟨src, dest⟩, hmem⟩ := List.exists_mem_of_ne_nil _ hne
      obtain ⟨v, hv, _, hdest, hacc, hcp, _⟩ :=
        installIconGo_copies_mem env app_id hd sizes ex false src dest hmem
      exact hno ⟨v, hv, hacc, Or.inr (hdest ▸ hcp)⟩
    · intro v hv hacc
      cases hex : ex (destPathOf app_id v) with
      | false => rfl
      | true => exact absurd ⟨v, hv, hacc, Or.inl hex⟩ hno
  · decide

/-- The all-success environment without a `steamapps/common` directory. -/
def c8env : Env := { allOkEnv with commonExists := false }

/-- C8 counterexample: with the common-games directory absent the process
does exit nonzero, but its write list is not empty — the temporary scratch
directory was already created before the check. -/
theorem c8_tempdir_before_check :
    runProgram c8env ["SteamLibrary"] = ⟨1, [FsWrite.tempDir tmpDir]⟩ ∧
    (runProgram c8env ["SteamLibrary"]).writes ≠ [] := by
  decide

/-- C8 as amended: when an argument is given and the root lacks
`steamapps/common`, the process exits with status 1 and its only filesystem
effect is the creation of the temporary scratch directory — no shortcut or
icon file is written. -/
theorem c8_exit_nonzero_only_tempdir (env : Env) (args : List String)
    (hargs : 0 < args.length) (hcommon : env.commonExists = false) :
    runProgram env args = ⟨1, [FsWrite.tempDir tmpDir]⟩ := by
  unfold runProgram
  rw [if_neg (by omega), hcommon]
  rfl

theorem c8_exit_witness :
    runProgram c8env ["SteamLibrary", "Extra"] = ⟨1, [FsWrite.tempDir tmpDir]⟩ :=
  c8_exit_nonzero_only_tempdir c8env ["SteamLibrary", "Extra"] (by decide) rfl

/-- An entry whose marker file's first line is empty, in a realizable
environment: `mkdir` fails exactly on the temp directory itself, which
`mkdtemp` created at startup, and the hash process exits nonzero. -/
def c9env : Env where
  chunks := fun _ => ["no clienticon line"]
  procExit := fun _ => 1
  fetchOk := fun _ => false
  saveOk := fun _ => false
  mkdirOk := fun d => d != tmpDir ++ "//"
  icotoolOk := fun _ _ => true
  readdirExtract := fun _ => []
  iconDirExists := fun _ => true
  destExists := fun _ => false
  copyOk := fun _ => true
  statDir := fun _ => some true
  appidExists := fun _ => true
  appidContent := fun _ => "\n730"
  writeOk := fun _ => true
  commonExists := true
  entries := ["Game"]

/-- `extractIco` throws at its opening `mkdir` whenever the destination
directory already exists, before the extraction tool ever runs. -/
theorem extractIco_mkdir_throws (env : Env) (src : Option String) (dest : String)
    (hmkdir : env.mkdirOk dest = false) :
    extractIco env src dest = JsOut.thrown "mkdir" := by
  unfold extractIco
  rw [hmkdir]
  rfl

/-- C9: an entry whose marker file's first line is empty installs no icon
and gets no shortcut file.  The code performs no emptiness check; the
outcome is forced instead: with the empty id, `installIcon` either never
settles (a pending hash promise) or reaches `extractIco`, whose `mkdir` of
the already-existing temp directory throws; `createDesktopFile` catches the
exception before its `writeFile`, so the entry yields no icon copy and no
`.desktop` file. -/
theorem c9_empty_id_writes_nothing (env : Env) (dir : String)
    (hline : firstLineOf (env.appidContent dir) = "")
    (hmkdir : env.mkdirOk (tmpDir ++ "/" ++ "" ++ "/") = false) :
    (createDesktopFile env dir).2 = [] ∧ entryDesktop env dir = none := by
  have hex : ∀ src : Option String,
      extractIco env src (tmpDir ++ "/" ++ "" ++ "/") = JsOut.thrown "mkdir" :=
    fun src => extractIco_mkdir_throws env src _ hmkdir
  have hrun : (installIconRun env "").2 = [] ∧
      ∀ b : Bool, (installIconRun env "").1 ≠ JsOut.ok b := by
    unfold installIconRun
    cases hdl : downloadIcon env "" with
    | pending => simp
    | thrown e => simp
    | ok ico =>
      simp only [hex]
      simp
  unfold entryDesktop createDesktopFile
  cases hstat : env.statDir dir with
  | none => simp
  | some isDir =>
    cases isDir with
    | false => simp
    | true =>
      cases happ : env.appidExists dir with
      | false => simp
      | true =>
        simp only [Bool.not_true, Bool.false_eq_true, if_false, hline]
        rcases hpair : installIconRun env "" with ⟨r, cs⟩
        rw [hpair] at hrun
        cases r with
        | pending => simpa using hrun.1
        | thrown e => simpa using hrun.1
        | ok b => exact (hrun.2 b rfl).elim

theorem c9_empty_id_writes_nothing_witness :
    (createDesktopFile c9env "Game").2 = [] ∧ entryDesktop c9env "Game" = none :=
  c9_empty_id_writes_nothing c9env "Game" (by decide) (by decide)

end SDFG

